import Mathlib

/-!
Verification of the persistence (save / restore) contract of the
`Week1/6. Save And Load Models.ipynb` notebook.

The notebook delegates every checkpoint and serialization operation to an
external deep-learning framework (`tf.keras.callbacks.ModelCheckpoint`,
`Model.save_weights`, `Model.load_weights`, `Model.save`,
`tf.keras.models.load_model`, `tf.train.latest_checkpoint`).  The repository
itself only configures and calls these operations; the spec documents their
contract abstractly.  The definitions below embed that contract: metric values
are rationals, model parameters are lists of shaped tensors, a weights-only
checkpoint carries parameters and nothing else, and fallible restores return
`Except`.  Concrete metric sequences and epoch tags are taken from the
notebook's captured training logs.
-/

namespace SaveLoad

/-- Modelled from the spec: the `save_only_if_improved` (Keras
`save_best_only`) policy decision.  The recorded best metric starts at
infinity (`none` stands for the initial `inf`, matching the notebook's
captured log line "val_loss improved from inf to 0.70540"); a new metric
triggers a write iff it is strictly better (strictly smaller, for a loss)
than the best recorded. -/
def improved (best : Option ℚ) (m : ℚ) : Bool :=
  match best with
  | none => true
  | some b => decide (m < b)

/-- One epoch-end step of the best-only checkpoint policy: returns the new
recorded best together with whether a checkpoint write happened. -/
def bestOnlyStep (best : Option ℚ) (m : ℚ) : Option ℚ × Bool :=
  if improved best m then (some m, true) else (best, false)

/-- The recorded best after processing a sequence of epoch-end metrics,
starting from a given recorded best. -/
def bestAfterFrom (best : Option ℚ) : List ℚ → Option ℚ
  | [] => best
  | m :: ms => bestAfterFrom (bestOnlyStep best m).1 ms

/-- The recorded best after a metric sequence, starting from the initial
infinity. -/
def bestAfter (ms : List ℚ) : Option ℚ :=
  bestAfterFrom none ms

/-- The per-epoch write decisions of the best-only policy over a metric
sequence, starting from a given recorded best. -/
def writeFlagsFrom (best : Option ℚ) : List ℚ → List Bool
  | [] => []
  | m :: ms => (bestOnlyStep best m).2 :: writeFlagsFrom (bestOnlyStep best m).1 ms

/-- The per-epoch write decisions over a metric sequence, starting from the
initial infinity. -/
def writeFlags (ms : List ℚ) : List Bool :=
  writeFlagsFrom none ms

/-- `beats best m` says the metric `m` is strictly better than the recorded
best (any finite metric beats the initial infinity). -/
def beats (best : Option ℚ) (m : ℚ) : Prop :=
  ∀ b ∈ best, m < b

/-- The spec's six-epoch metric sequence [0.70, 0.52, 0.46, 0.43, 0.42,
0.43 (worse)]. -/
def c1Metrics : List ℚ :=
  [70/100, 52/100, 46/100, 43/100, 42/100, 43/100]

/-- A shaped parameter tensor: its declared shape and its raw payload. -/
structure Tensor where
  shape : List ℕ
  data : List ℤ
deriving DecidableEq

/-- An optimizer: its configured kind (the notebook always compiles with
"adam") and its slot variables. -/
structure Optimizer where
  kind : String
  slots : List Tensor
deriving DecidableEq

/-- A model instance: declared parameter shapes (the architecture), the
current parameters (the ModelState), and the optimizer. -/
structure Model where
  arch : List (List ℕ)
  params : List Tensor
  opt : Optimizer
deriving DecidableEq

/-- Modelled from the spec: the failure kinds of the persistence layer
(NotFound, ShapeMismatch, UnsupportedOptimizer, IOFailure). -/
inductive PersistError where
  | notFound
  | shapeMismatch
  | unsupportedOptimizer
  | ioFailure
deriving DecidableEq

/-- Modelled from the spec: a weights-only Checkpoint.  It records the
parameter payload (with each tensor's shape) and nothing else: in
particular it carries no optimizer state. -/
structure Checkpoint where
  params : List Tensor
deriving DecidableEq

/-- The parameter shapes declared by the notebook's `create_model` with a
given hidden width: Dense(hidden) on 784 inputs (kernel and bias), Dropout
(no parameters), Dense(10) (kernel and bias).  The source fixes
hidden = 512. -/
def denseArch (hidden : ℕ) : List (List ℕ) :=
  [[784, hidden], [hidden], [hidden, 10], [10]]

/-- Parameter tensors with the given shapes and empty payloads (the payload
length is not constrained by this embedding). -/
def emptyParams (arch : List (List ℕ)) : List Tensor :=
  arch.map (fun s => ⟨s, []⟩)

/-- A freshly constructed model with the given declared shapes: parameters
come from the framework's initializer (passed explicitly here), and the
optimizer is a fresh "adam" with no accumulated slots, as produced by
`model.compile(optimizer='adam', ...)`. -/
def freshModel (arch : List (List ℕ)) (init : List Tensor) : Model :=
  ⟨arch, init, ⟨"adam", []⟩⟩

/-- The notebook's `create_model`, generalized over the hidden width (the
source fixes 512; the spec's ShapeMismatch scenario declares 256). -/
def create_model_with (hidden : ℕ) (init : List Tensor) : Model :=
  freshModel (denseArch hidden) init

/-- The notebook's `create_model`: hidden width 512. -/
def create_model (init : List Tensor) : Model :=
  create_model_with 512 init

/-- Modelled from the spec: `Model.save_weights` freezes the current
ModelState into a weights-only checkpoint. -/
def save_weights (m : Model) : Checkpoint :=
  ⟨m.params⟩

/-- Modelled from the spec: `Model.load_weights` copies the stored
parameters into the target model's parameter slots when the checkpoint's
recorded shapes match the target's declared shapes, and fails with
ShapeMismatch otherwise.  In-place mutation is modelled by returning the
updated model; the optimizer field is not touched. -/
def load_weights (c : Checkpoint) (m : Model) : Except PersistError Model :=
  if c.params.map Tensor.shape = m.arch then
    Except.ok ⟨m.arch, c.params, m.opt⟩
  else
    Except.error PersistError.shapeMismatch

/-- Modelled from the spec: resolving a checkpoint identifier over the set
of written checkpoints; fails with NotFound when no checkpoint was written
under that identifier. -/
def resolveCkpt (store : List (String × Checkpoint)) (target : String) :
    Except PersistError Checkpoint :=
  match store.find? (fun e => e.1 == target) with
  | some e => Except.ok e.2
  | none => Except.error PersistError.notFound

/-- Modelled from the spec: restore a checkpoint identifier into a target
model; every failure is returned synchronously to the caller. -/
def restoreFrom (store : List (String × Checkpoint)) (target : String) (m : Model) :
    Except PersistError Model :=
  match resolveCkpt store target with
  | Except.error e => Except.error e
  | Except.ok c => load_weights c m

/-- Modelled from the spec: `tf.train.latest_checkpoint` resolves "latest"
over a CheckpointSet: it returns the most recently written checkpoint (the
writes are listed in write order). -/
def latest_checkpoint (writes : List ℕ) : Option ℕ :=
  writes.getLast?

/-- The epoch tags written by a run of `fit` with a periodic checkpoint
callback of the given period: a write at every epoch e in 1..epochs with
e divisible by the period, matching the notebook's captured log (epochs
5, 10, ..., 50 for period 5). -/
def periodicWrites (epochs period : ℕ) : List ℕ :=
  (List.range epochs).filterMap (fun k => if (k + 1) % period = 0 then some (k + 1) else none)

/-- The notebook's training_2 checkpoint set: a manual `save_weights` at
epoch 0 followed by the periodic writes of a 50-epoch fit with period 5. -/
def training2Writes : List ℕ :=
  0 :: periodicWrites 50 5

/-- One elementary step of a checkpoint write: either one byte appended to
the temporary file, or the final atomic rename over the target. -/
inductive WriteStep where
  | tempByte (b : ℤ)
  | commitRename
deriving DecidableEq

/-- The state of the checkpoint directory: the committed checkpoints keyed
by identifier, and the content of the uncommitted temporary file. -/
structure CkptDir where
  committed : List (String × Checkpoint)
  temp : List ℤ
deriving DecidableEq

/-- The serialized byte stream of a checkpoint (shape words followed by the
payload of each tensor). -/
def serializeCkpt (c : Checkpoint) : List ℤ :=
  c.params.foldr (fun t acc => (t.shape.map Int.ofNat) ++ t.data ++ acc) []

/-- Modelled from the spec: the step sequence of an atomic-replace write:
every serialized byte goes to the temporary location first, and only the
final step renames the temporary file over the target identifier. -/
def writeProgram (c : Checkpoint) : List WriteStep :=
  (serializeCkpt c).map WriteStep.tempByte ++ [WriteStep.commitRename]

/-- The effect of one write step on the checkpoint directory. -/
def applyWriteStep (target : String) (c : Checkpoint) (d : CkptDir) :
    WriteStep → CkptDir
  | WriteStep.tempByte b => ⟨d.committed, d.temp ++ [b]⟩
  | WriteStep.commitRename =>
      ⟨(target, c) :: d.committed.filter (fun e => ¬(e.1 == target)), []⟩

/-- Run a prefix of the write program; a write that fails partway executes
only a proper prefix of the steps (never the final rename). -/
def runWrite (target : String) (c : Checkpoint) (d : CkptDir)
    (steps : List WriteStep) : CkptDir :=
  steps.foldl (applyWriteStep target c) d

/-- One epoch-end observation of `model.fit`: the epoch's parameters and
its validation loss. -/
structure EpochEnd where
  params : List Tensor
  valLoss : ℚ
deriving DecidableEq

/-- Modelled from the spec: the effect of one epoch end on the single
checkpoint stored under a fixed identifier by the best-only callback: the
checkpoint (with its selection metric) is overwritten iff the epoch's
validation loss strictly improves on the recorded best. -/
def bestCkptStep (st : Option (Checkpoint × ℚ)) (e : EpochEnd) :
    Option (Checkpoint × ℚ) :=
  if improved (st.map Prod.snd) e.valLoss then some (⟨e.params⟩, e.valLoss) else st

/-- The checkpoint stored under the fixed identifier after a training
trace, starting from no checkpoint. -/
def runBestOnly (trace : List EpochEnd) : Option (Checkpoint × ℚ) :=
  trace.foldl bestCkptStep none

/-- An abstract tag standing for the parameter state at the end of a given
epoch. -/
def epochTag (i : ℕ) : List Tensor :=
  [⟨[1], [Int.ofNat i]⟩]

/-- The notebook's training_1 run: ten epochs with the captured validation
losses 0.7054, 0.5175, 0.4612, 0.4267, 0.4213, 0.4275, 0.4697, 0.4358,
0.4227, 0.4254. -/
def training1Trace : List EpochEnd :=
  [⟨epochTag 1, 7054/10000⟩, ⟨epochTag 2, 5175/10000⟩, ⟨epochTag 3, 4612/10000⟩,
   ⟨epochTag 4, 4267/10000⟩, ⟨epochTag 5, 4213/10000⟩, ⟨epochTag 6, 4275/10000⟩,
   ⟨epochTag 7, 4697/10000⟩, ⟨epochTag 8, 4358/10000⟩, ⟨epochTag 9, 4227/10000⟩,
   ⟨epochTag 10, 4254/10000⟩]

/-- Modelled from the spec: a FullModelArchive captures architecture,
weights and optimizer state in one self-contained artifact. -/
structure FullModelArchive where
  arch : List (List ℕ)
  params : List Tensor
  opt : Optimizer
deriving DecidableEq

/-- Modelled from the spec: `Model.save` (the notebook's
`model.save('my_model.h5')`) freezes the whole model into one archive. -/
def save (m : Model) : FullModelArchive :=
  ⟨m.arch, m.params, m.opt⟩

/-- Modelled from the spec: `tf.keras.models.load_model` reconstructs a
model from the archive alone, with no access to the original
model-construction code. -/
def load_model (a : FullModelArchive) : Model :=
  ⟨a.arch, a.params, a.opt⟩

/-- A small concrete well-formed model used to instantiate the round-trip
theorems. -/
def c2SampleModel : Model :=
  ⟨[[2, 3], [3]], [⟨[2, 3], [1, 2, 3, 4, 5, 6]⟩, ⟨[3], [7, 8, 9]⟩], ⟨"adam", []⟩⟩

/-- A fresh initialization with the same shapes as `c2SampleModel`. -/
def c2SampleInit : List Tensor :=
  [⟨[2, 3], [0, 0, 0, 0, 0, 0]⟩, ⟨[3], [0, 0, 0]⟩]

/-- The model produced by restoring `c2SampleModel`'s checkpoint into a
fresh model of the same architecture. -/
def c4Loaded : Model :=
  ⟨[[2, 3], [3]], c2SampleModel.params, ⟨"adam", []⟩⟩

/-- A checkpoint written from a 512-hidden-unit model. -/
def ckpt512 : Checkpoint :=
  save_weights (create_model_with 512 (emptyParams (denseArch 512)))

/-- A model declared with 256 hidden units. -/
def model256 : Model :=
  create_model_with 256 (emptyParams (denseArch 256))

/-- A directory holding one committed checkpoint, used to instantiate the
failed-write theorem. -/
def c8Dir : CkptDir :=
  ⟨[("cp.ckpt", Checkpoint.mk [])], []⟩

end SaveLoad

namespace SaveLoad

theorem improved_iff (best : Option ℚ) (m : ℚ) :
    improved best m = true ↔ beats best m := by
  cases best with
  | none => simp [improved, beats]
  | some b => simp [improved, beats]

theorem beats_bestOnlyStep (best : Option ℚ) (m x : ℚ) :
    beats (bestOnlyStep best m).1 x ↔ (beats best x ∧ x < m) := by
  cases best with
  | none => simp [bestOnlyStep, improved, beats]
  | some b =>
      have hsome : ∀ y : ℚ, beats (some y) x ↔ x < y := by
        intro y
        simp [beats]
      by_cases h : m < b
      · have hstep : (bestOnlyStep (some b) m).1 = some m := by
          simp [bestOnlyStep, improved, h]
        rw [hstep]
        simp only [hsome]
        constructor
        · exact fun hx => ⟨lt_trans hx h, hx⟩
        · exact fun hx => hx.2
      · have hstep : (bestOnlyStep (some b) m).1 = some b := by
          simp [bestOnlyStep, improved, h]
        rw [hstep]
        simp only [hsome]
        constructor
        · exact fun hx => ⟨hx, lt_of_lt_of_le hx (not_lt.mp h)⟩
        · exact fun hx => hx.1

theorem writeFlagsFrom_getD_iff :
    ∀ (ms : List ℚ) (best : Option ℚ) (i : ℕ), i < ms.length →
      ((writeFlagsFrom best ms).getD i false = true ↔
        (beats best (ms.getD i 0) ∧ ∀ j, j < i → ms.getD i 0 < ms.getD j 0)) := by
  intro ms
  induction ms with
  | nil =>
      intro best i h
      simp at h
  | cons m ms ih =>
      intro best i h
      match i with
      | 0 =>
          have h0 : (writeFlagsFrom best (m :: ms)).getD 0 false = (bestOnlyStep best m).2 := by
            simp [writeFlagsFrom]
          have h2 : (bestOnlyStep best m).2 = improved best m := by
            by_cases hb : improved best m <;> simp [bestOnlyStep, hb]
          rw [h0, h2, improved_iff]
          simp
      | Nat.succ k =>
          have hk : k < ms.length := Nat.lt_of_succ_lt_succ h
          have hstep : (writeFlagsFrom best (m :: ms)).getD (k + 1) false
              = (writeFlagsFrom (bestOnlyStep best m).1 ms).getD k false := by
            simp [writeFlagsFrom]
          rw [hstep, ih (bestOnlyStep best m).1 k hk]
          simp only [List.getD_cons_succ]
          rw [beats_bestOnlyStep]
          constructor
          · rintro ⟨⟨hb, hm⟩, hall⟩
            refine ⟨hb, ?_⟩
            intro j hj
            match j with
            | 0 => simpa using hm
            | Nat.succ j' => simpa using hall j' (Nat.lt_of_succ_lt_succ hj)
          · rintro ⟨hb, hall⟩
            refine ⟨⟨hb, ?_⟩, ?_⟩
            · simpa using hall 0 (Nat.succ_pos k)
            · intro j hj
              simpa using hall (j + 1) (Nat.succ_lt_succ hj)

/-- C1: with the `save_only_if_improved` (`save_best_only`) policy, a
checkpoint is written at an epoch iff that epoch's metric is strictly
better (strictly smaller) than every earlier metric, i.e. than the best
recorded so far; on the spec's sequence [0.70, 0.52, 0.46, 0.43, 0.42,
0.43] exactly the first five epochs write and the sixth is skipped, and
the recorded best stays 0.42. -/
theorem save_best_only_writes_iff_improvement (ms : List ℚ) (i : ℕ) (h : i < ms.length) :
    ((writeFlags ms).getD i false = true ↔ ∀ j, j < i → ms.getD i 0 < ms.getD j 0)
    ∧ writeFlags c1Metrics = [true, true, true, true, true, false]
    ∧ bestAfter c1Metrics = some (42/100) := by
  refine ⟨?_, ?_, ?_⟩
  · have hiff := writeFlagsFrom_getD_iff ms none i h
    simpa [writeFlags, beats] using hiff
  · norm_num [c1Metrics, writeFlags, writeFlagsFrom, bestOnlyStep, improved]
  · norm_num [c1Metrics, bestAfter, bestAfterFrom, bestOnlyStep, improved]

/-- C1 witness: the theorem instantiated at the spec's metric sequence and
the skipped sixth epoch. -/
theorem save_best_only_writes_iff_improvement_witness :
    ((writeFlags c1Metrics).getD 5 false = true ↔
      ∀ j, j < 5 → c1Metrics.getD 5 0 < c1Metrics.getD j 0)
    ∧ writeFlags c1Metrics = [true, true, true, true, true, false]
    ∧ bestAfter c1Metrics = some (42/100) :=
  save_best_only_writes_iff_improvement c1Metrics 5 (by simp [c1Metrics])

/-- C10: with `save_best_only` and no previously recorded best, the
recorded best is the initial infinity, so any finite first metric is a
strict improvement and the first epoch always writes. -/
theorem first_epoch_always_writes (m : ℚ) (ms : List ℚ) :
    improved none m = true ∧ (writeFlags (m :: ms)).getD 0 false = true := by
  constructor
  · rfl
  · simp [writeFlags, writeFlagsFrom, bestOnlyStep, improved]

end SaveLoad

namespace SaveLoad

/-- C2: saving any well-formed ModelState with `save_weights` and loading
it with `load_weights` into a freshly constructed model of the identical
architecture succeeds and yields parameters bit-identical to the saved
ones. -/
theorem save_weights_load_weights_round_trip (m : Model) (init : List Tensor)
    (h : m.params.map Tensor.shape = m.arch) :
    ∃ m' : Model,
      load_weights (save_weights m) (freshModel m.arch init) = Except.ok m' ∧
      m'.params = m.params := by
  refine ⟨⟨m.arch, m.params, ⟨"adam", []⟩⟩, ?_, rfl⟩
  simp [load_weights, save_weights, freshModel, h]

/-- C2 witness: the round trip instantiated at a concrete model. -/
theorem save_weights_load_weights_round_trip_witness :
    ∃ m' : Model,
      load_weights (save_weights c2SampleModel)
        (freshModel c2SampleModel.arch c2SampleInit) = Except.ok m' ∧
      m'.params = c2SampleModel.params :=
  save_weights_load_weights_round_trip c2SampleModel c2SampleInit (by decide)

/-- C4: a successful `load_weights` replaces only the target model's
parameters: the optimizer state and the declared architecture of the
target are unchanged, and the new parameters are exactly the checkpoint's
payload (a weights-only checkpoint carries nothing else). -/
theorem load_weights_preserves_optimizer_state (c : Checkpoint) (m m' : Model)
    (h : load_weights c m = Except.ok m') :
    m'.opt = m.opt ∧ m'.arch = m.arch ∧ m'.params = c.params := by
  by_cases hs : c.params.map Tensor.shape = m.arch
  · rw [load_weights, if_pos hs] at h
    cases h
    exact ⟨rfl, rfl, rfl⟩
  · rw [load_weights, if_neg hs] at h
    cases h

/-- C4 witness: the frame property instantiated at a concrete restore. -/
theorem load_weights_preserves_optimizer_state_witness :
    c4Loaded.opt = (freshModel c2SampleModel.arch c2SampleInit).opt
    ∧ c4Loaded.arch = (freshModel c2SampleModel.arch c2SampleInit).arch
    ∧ c4Loaded.params = (save_weights c2SampleModel).params :=
  load_weights_preserves_optimizer_state (save_weights c2SampleModel)
    (freshModel c2SampleModel.arch c2SampleInit) c4Loaded rfl

/-- C5: `load_weights` fails with ShapeMismatch whenever the target model's
declared parameter shapes differ from the shapes recorded in the
checkpoint; in particular restoring a checkpoint written from the
512-hidden-unit `create_model` into a model declared with 256 hidden units
fails with ShapeMismatch. -/
theorem load_weights_shape_mismatch (c : Checkpoint) (m : Model)
    (h : ¬ c.params.map Tensor.shape = m.arch) :
    load_weights c m = Except.error PersistError.shapeMismatch
    ∧ load_weights ckpt512 model256 = Except.error PersistError.shapeMismatch := by
  constructor
  · rw [load_weights, if_neg h]
  · rfl

/-- C5 witness: the mismatch instantiated at the 512-vs-256 scenario. -/
theorem load_weights_shape_mismatch_witness :
    load_weights ckpt512 model256 = Except.error PersistError.shapeMismatch
    ∧ load_weights ckpt512 model256 = Except.error PersistError.shapeMismatch :=
  load_weights_shape_mismatch ckpt512 model256 (by decide)

/-- C6: restoring from an identifier under which no checkpoint exists
fails with NotFound, and the failure is the synchronous return value of
the call (never an `ok`). -/
theorem restore_missing_checkpoint_not_found (store : List (String × Checkpoint))
    (target : String) (m : Model) (h : ∀ e ∈ store, e.1 ≠ target) :
    restoreFrom store target m = Except.error PersistError.notFound := by
  have hf : store.find? (fun e => e.1 == target) = none := by
    apply List.find?_eq_none.mpr
    intro e he
    simpa using h e he
  rw [restoreFrom, resolveCkpt, hf]

/-- C6 witness: restoring from an empty checkpoint set. -/
theorem restore_missing_checkpoint_not_found_witness :
    restoreFrom [] "checkpoints/training_1/cp.ckpt" c2SampleModel
      = Except.error PersistError.notFound :=
  restore_missing_checkpoint_not_found [] "checkpoints/training_1/cp.ckpt"
    c2SampleModel (by simp)

end SaveLoad

namespace SaveLoad

theorem getLast?_mem {α : Type} :
    ∀ (l : List α) (x : α), l.getLast? = some x → x ∈ l := by
  intro l
  induction l with
  | nil =>
      intro x hx
      simp at hx
  | cons a l ih =>
      intro x hx
      cases l with
      | nil =>
          simp [List.getLast?] at hx
          simp [hx]
      | cons b t =>
          rw [List.getLast?_cons_cons] at hx
          exact List.mem_cons_of_mem a (ih x hx)

theorem sorted_le_getLast :
    ∀ (l : List ℕ), l.Sorted (· ≤ ·) → ∀ x, l.getLast? = some x → ∀ e ∈ l, e ≤ x := by
  intro l
  induction l with
  | nil =>
      intro _ x hx
      simp at hx
  | cons a l ih =>
      intro hs x hx e he
      cases l with
      | nil =>
          simp [List.getLast?] at hx
          simp at he
          simp [he, hx]
      | cons b t =>
          rw [List.getLast?_cons_cons] at hx
          rcases List.mem_cons.mp he with rfl | he'
          · exact (List.sorted_cons.mp hs).1 x (getLast?_mem _ x hx)
          · exact ih (List.sorted_cons.mp hs).2 x hx e he'

/-- C7: over a checkpoint set written in increasing epoch order, resolving
"latest" returns a written checkpoint whose epoch tag is greatest; for the
notebook's 50-epoch run with a write every 5 epochs (plus the manual
epoch-0 save), "latest" resolves to the epoch-50 checkpoint. -/
theorem latest_checkpoint_greatest_epoch (writes : List ℕ) (l : ℕ)
    (hs : writes.Sorted (· ≤ ·)) (hl : latest_checkpoint writes = some l) :
    l ∈ writes ∧ (∀ e ∈ writes, e ≤ l)
    ∧ latest_checkpoint training2Writes = some 50 := by
  refine ⟨getLast?_mem writes l hl, sorted_le_getLast writes hs l hl, ?_⟩
  decide

/-- C7 witness: the theorem instantiated at the notebook's training_2
checkpoint set. -/
theorem latest_checkpoint_greatest_epoch_witness :
    50 ∈ training2Writes ∧ (∀ e ∈ training2Writes, e ≤ 50)
    ∧ latest_checkpoint training2Writes = some 50 :=
  latest_checkpoint_greatest_epoch training2Writes 50 (by decide) (by decide)

end SaveLoad

namespace SaveLoad

theorem runWrite_committed_of_no_commit (target : String) (c : Checkpoint) :
    ∀ (steps : List WriteStep) (d : CkptDir),
      WriteStep.commitRename ∉ steps →
      (runWrite target c d steps).committed = d.committed := by
  intro steps
  induction steps with
  | nil =>
      intro d _
      rfl
  | cons s steps ih =>
      intro d hmem
      have hstep : runWrite target c d (s :: steps)
          = runWrite target c (applyWriteStep target c d s) steps := rfl
      rw [hstep, ih _ (fun hin => hmem (List.mem_cons_of_mem _ hin))]
      cases s with
      | tempByte b => rfl
      | commitRename => exact absurd (List.mem_cons_self _ _) hmem

theorem commit_not_mem_take (c : Checkpoint) (k : ℕ)
    (h : k ≤ (serializeCkpt c).length) :
    WriteStep.commitRename ∉ (writeProgram c).take k := by
  intro hmem
  rw [writeProgram, List.take_append_of_le_length (by simpa using h)] at hmem
  have hmem' : WriteStep.commitRename ∈ (serializeCkpt c).map WriteStep.tempByte :=
    List.mem_of_mem_take hmem
  simp [List.mem_map] at hmem'

/-- C8: a checkpoint write that fails partway through (it executes only a
prefix of the write program, never reaching the final atomic rename)
leaves every committed checkpoint untouched: the prior checkpoint under
any identifier is intact and restoring from it behaves exactly as before
the failed write. -/
theorem failed_write_preserves_prior_checkpoint (target other : String)
    (c : Checkpoint) (d : CkptDir) (k : ℕ) (m : Model)
    (h : k ≤ (serializeCkpt c).length) :
    (runWrite target c d ((writeProgram c).take k)).committed = d.committed
    ∧ restoreFrom (runWrite target c d ((writeProgram c).take k)).committed other m
        = restoreFrom d.committed other m := by
  have hc := runWrite_committed_of_no_commit target c ((writeProgram c).take k) d
    (commit_not_mem_take c k h)
  exact ⟨hc, by rw [hc]⟩

/-- C8 witness: a write of a concrete checkpoint failing before any byte
reaches the temporary file. -/
theorem failed_write_preserves_prior_checkpoint_witness :
    (runWrite "cp.ckpt" (save_weights c2SampleModel) c8Dir
        ((writeProgram (save_weights c2SampleModel)).take 1)).committed = c8Dir.committed
    ∧ restoreFrom (runWrite "cp.ckpt" (save_weights c2SampleModel) c8Dir
          ((writeProgram (save_weights c2SampleModel)).take 1)).committed
        "cp.ckpt" c2SampleModel
        = restoreFrom c8Dir.committed "cp.ckpt" c2SampleModel :=
  failed_write_preserves_prior_checkpoint "cp.ckpt" "cp.ckpt"
    (save_weights c2SampleModel) c8Dir 1 c2SampleModel (by decide)

end SaveLoad

namespace SaveLoad

theorem foldl_bestCkptStep_spec :
    ∀ (trace : List EpochEnd) (st : Option (Checkpoint × ℚ)) (c : Checkpoint) (b : ℚ),
      trace.foldl bestCkptStep st = some (c, b) →
      ((st = some (c, b) ∨ ∃ e ∈ trace, c = Checkpoint.mk e.params ∧ b = e.valLoss)
        ∧ (∀ e ∈ trace, b ≤ e.valLoss)
        ∧ (∀ c₀ b₀, st = some (c₀, b₀) → b ≤ b₀)) := by
  intro trace
  induction trace with
  | nil =>
      intro st c b h
      simp only [List.foldl_nil] at h
      refine ⟨Or.inl h, by simp, ?_⟩
      intro c₀ b₀ h₀
      rw [h] at h₀
      cases h₀
      exact le_refl b
  | cons e tr ih =>
      intro st c b h
      have h' : tr.foldl bestCkptStep (bestCkptStep st e) = some (c, b) := h
      obtain ⟨hd, hmin, hle⟩ := ih (bestCkptStep st e) c b h'
      cases hst : st with
      | none =>
          have hstep : bestCkptStep st e = some (Checkpoint.mk e.params, e.valLoss) := by
            rw [hst]
            simp [bestCkptStep, improved]
          have hbe : b ≤ e.valLoss := hle _ _ hstep
          refine ⟨?_, ?_, ?_⟩
          · right
            rcases hd with hd | ⟨e', he', hc, hb⟩
            · rw [hstep] at hd
              cases hd
              exact ⟨e, List.mem_cons_self _ _, rfl, rfl⟩
            · exact ⟨e', List.mem_cons_of_mem _ he', hc, hb⟩
          · intro e'' he''
            rcases List.mem_cons.mp he'' with rfl | h''
            · exact hbe
            · exact hmin _ h''
          · intro c₀ b₀ h₀
            exact Option.noConfusion h₀
      | some p =>
          obtain ⟨c₀, b₀⟩ := p
          by_cases himp : e.valLoss < b₀
          · have hstep : bestCkptStep st e = some (Checkpoint.mk e.params, e.valLoss) := by
              rw [hst]
              simp [bestCkptStep, improved, himp]
            have hbe : b ≤ e.valLoss := hle _ _ hstep
            refine ⟨?_, ?_, ?_⟩
            · right
              rcases hd with hd | ⟨e', he', hc, hb⟩
              · rw [hstep] at hd
                cases hd
                exact ⟨e, List.mem_cons_self _ _, rfl, rfl⟩
              · exact ⟨e', List.mem_cons_of_mem _ he', hc, hb⟩
            · intro e'' he''
              rcases List.mem_cons.mp he'' with rfl | h''
              · exact hbe
              · exact hmin _ h''
            · intro c₀' b₀' h₀'
              injection h₀' with hp
              cases hp
              exact le_of_lt (lt_of_le_of_lt hbe himp)
          · have hstep : bestCkptStep st e = some (c₀, b₀) := by
              rw [hst]
              simp [bestCkptStep, improved, himp]
            have hbb₀ : b ≤ b₀ := hle _ _ hstep
            have hb₀e : b₀ ≤ e.valLoss := not_lt.mp himp
            refine ⟨?_, ?_, ?_⟩
            · rcases hd with hd | ⟨e', he', hc, hb⟩
              · left
                rw [hstep] at hd
                exact hd
              · right
                exact ⟨e', List.mem_cons_of_mem _ he', hc, hb⟩
            · intro e'' he''
              rcases List.mem_cons.mp he'' with rfl | h''
              · exact le_trans hbb₀ hb₀e
              · exact hmin _ h''
            · intro c₀' b₀' h₀'
              injection h₀' with hp
              cases hp
              exact hbb₀

/-- C9: with `save_best_only` under a single fixed identifier, after any
training trace the stored checkpoint is the state of an epoch whose
validation loss is minimal among all epochs seen so far; on the notebook's
ten-epoch training_1 run the stored checkpoint is epoch 5's state with
validation loss 0.4213, not the final epoch's state with validation loss
0.4254. -/
theorem best_only_stores_min_so_far (trace : List EpochEnd) (c : Checkpoint) (b : ℚ)
    (h : runBestOnly trace = some (c, b)) :
    (∃ e ∈ trace, c = Checkpoint.mk e.params ∧ b = e.valLoss
      ∧ ∀ e' ∈ trace, b ≤ e'.valLoss)
    ∧ runBestOnly training1Trace = some (Checkpoint.mk (epochTag 5), 4213/10000)
    ∧ runBestOnly training1Trace ≠ some (Checkpoint.mk (epochTag 10), 4254/10000) := by
  obtain ⟨hd, hmin, _⟩ := foldl_bestCkptStep_spec trace none c b h
  refine ⟨?_, ?_, ?_⟩
  · rcases hd with hd | ⟨e, he, hc, hb⟩
    · cases hd
    · exact ⟨e, he, hc, hb, hmin⟩
  · norm_num [runBestOnly, training1Trace, bestCkptStep, improved, epochTag]
  · norm_num [runBestOnly, training1Trace, bestCkptStep, improved, epochTag]

/-- C9 witness: the invariant instantiated at the notebook's training_1
trace, whose stored checkpoint is epoch 5's. -/
theorem best_only_stores_min_so_far_witness :
    (∃ e ∈ training1Trace, Checkpoint.mk (epochTag 5) = Checkpoint.mk e.params
      ∧ (4213/10000 : ℚ) = e.valLoss ∧ ∀ e' ∈ training1Trace, (4213/10000 : ℚ) ≤ e'.valLoss)
    ∧ runBestOnly training1Trace = some (Checkpoint.mk (epochTag 5), 4213/10000)
    ∧ runBestOnly training1Trace ≠ some (Checkpoint.mk (epochTag 10), 4254/10000) :=
  best_only_stores_min_so_far training1Trace (Checkpoint.mk (epochTag 5)) (4213/10000)
    (by norm_num [runBestOnly, training1Trace, bestCkptStep, improved, epochTag])

end SaveLoad

namespace SaveLoad

/-- C3: saving the entire model to one archive and loading that archive
back reconstructs the model — architecture, weights and optimizer state —
from the archive alone (`load_model` takes no model-construction code),
and for any evaluation function of architecture and parameters the
reconstructed model's accuracy on a fixed held-out set is within any
nonnegative floating-point tolerance of the pre-save accuracy. -/
theorem full_archive_round_trip (m : Model)
    (ev : List (List ℕ) → List Tensor → ℚ) (tol : ℚ) (htol : 0 ≤ tol) :
    load_model (save m) = m
    ∧ (load_model (save m)).arch = m.arch
    ∧ (load_model (save m)).params = m.params
    ∧ (load_model (save m)).opt = m.opt
    ∧ |ev (load_model (save m)).arch (load_model (save m)).params - ev m.arch m.params| ≤ tol := by
  refine ⟨rfl, rfl, rfl, rfl, ?_⟩
  show |ev m.arch m.params - ev m.arch m.params| ≤ tol
  rw [sub_self, abs_zero]
  exact htol

/-- C3 witness: the round trip instantiated at a concrete model, a concrete
evaluation function and tolerance zero. -/
theorem full_archive_round_trip_witness :
    load_model (save c2SampleModel) = c2SampleModel
    ∧ (load_model (save c2SampleModel)).arch = c2SampleModel.arch
    ∧ (load_model (save c2SampleModel)).params = c2SampleModel.params
    ∧ (load_model (save c2SampleModel)).opt = c2SampleModel.opt
    ∧ |(fun (_ : List (List ℕ)) (_ : List Tensor) => (0 : ℚ))
          (load_model (save c2SampleModel)).arch (load_model (save c2SampleModel)).params
        - (fun (_ : List (List ℕ)) (_ : List Tensor) => (0 : ℚ))
            c2SampleModel.arch c2SampleModel.params| ≤ (0 : ℚ) :=
  full_archive_round_trip c2SampleModel
    (fun (_ : List (List ℕ)) (_ : List Tensor) => (0 : ℚ)) 0 le_rfl

end SaveLoad
